import Mathlib

/-!
Verification of the tike distributed ADMM coordination layer.

The development shallowly embeds the two core source files:

* `src/tike/communicator.py` — the `MPICommunicator` class: `scatter`,
  `broadcast`, `get_ptycho_slice`, `get_tomo_slice`.
* `src/tike/tike.py` — the gather-based `admm` coordinator: the scatter
  setup (lines 125-157) and the iteration loop (lines 159-196).

Arrays are embedded as Lean lists along their partition axes; the dense
per-view 2-D slices (`psi[view]`, `lamda[view]`, ...) are embedded as total
functions `Nat → Nat → K` over an abstract field `K` of scalars, so all
elementwise numpy arithmetic becomes pointwise arithmetic in `K`.  The
external numerical kernels (`tike.ptycho.reconstruct`,
`tike.tomo.reconstruct`, `tike.tomo.forward`, `wavenumber`, `np.exp`,
`np.log`) are opaque collaborators and are passed in as the `Externals`
record.  MPI collectives are embedded by their global (all-ranks)
semantics: `comm.scatter(chunks, root=0)` delivers `chunks[rank]` to each
rank, `comm.bcast(v, root=0)` replicates the root value, `comm.gather`
followed by `np.concatenate(..., axis=0)` is a flatten in rank order.
-/

namespace Tike

variable {α β γ δ : Type*}

/-- Chunk sizes used by `np.array_split(A, N)` on an axis of length `L`:
the first `L % N` chunks have `L / N + 1` elements, the remaining
`N - L % N` chunks have `L / N` elements. -/
def chunkSizes (L N : Nat) : List Nat :=
  List.replicate (L % N) (L / N + 1) ++ List.replicate (N - L % N) (L / N)

/-- Cut a list into consecutive chunks of the given sizes. -/
def splitSizes : List α → List Nat → List (List α)
  | _, [] => []
  | A, s :: ss => A.take s :: splitSizes (A.drop s) ss

/-- Model of `np.array_split(A, N)` along the leading axis. -/
def array_split (A : List α) (N : Nat) : List (List α) :=
  splitSizes A (chunkSizes A.length N)

/-- The chunk that rank `r` receives from `comm.scatter(np.array_split(A, N), root=0)`
(the scatter pattern inlined in `admm`, `src/tike/tike.py` lines 130-147). -/
def scatterChunk (A : List α) (N r : Nat) : List α :=
  (array_split A N).getD r []

/-- Rank `r`'s piece of `np.array_split(W, N, axis=1)`: every row of the
2-D array `W` (a list of rows) is cut at the same chunk boundaries and the
`r`-th column block is kept. -/
def colSplit (W : List (List α)) (N r : Nat) : List (List α) :=
  W.map (fun row => scatterChunk row N r)

/-- Model of `np.concatenate(parts, axis=1)` for a list of 2-D arrays that
all have the same number of rows: rows are joined positionally. -/
def concatAxis1 : List (List (List α)) → List (List α)
  | [] => []
  | [M] => M
  | M :: Ms => List.zipWith (fun r s => r ++ s) M (concatAxis1 Ms)

/-- Model of `MPICommunicator.get_ptycho_slice` (`src/tike/communicator.py`
lines 50-54) seen globally: `gathered` is the rank-ordered list of local
partitions produced by `comm.allgather(arg)`; the method concatenates them
along axis 1 into the whole array and keeps this rank's chunk of
`np.array_split(whole, size, axis=0)`. -/
def get_ptycho_slice (gathered : List (List (List α))) (N rank : Nat) : List (List α) :=
  scatterChunk (concatAxis1 gathered) N rank

/-- Model of `MPICommunicator.get_tomo_slice` (`src/tike/communicator.py`
lines 56-60) seen globally: concatenate the allgathered partitions along
axis 0 and keep this rank's chunk of `np.array_split(whole, size, axis=1)`. -/
def get_tomo_slice (gathered : List (List (List α))) (N rank : Nat) : List (List α) :=
  colSplit gathered.flatten N rank

/-- Result of a Python expression that either produces a value or raises
`TypeError`. -/
inductive PyResult (α : Type u) where
  | ok : α → PyResult α
  | typeError : PyResult α

/-- Item assignment `t[i] = x` on a Python tuple.  The starred parameter
`*args` of `MPICommunicator.scatter` and `MPICommunicator.broadcast` binds
the arguments to a tuple, and tuples do not support item assignment, so
the statement raises `TypeError` unconditionally. -/
def tupleSetItem (t : List α) (i : Nat) (x : α) : PyResult (List α) :=
  PyResult.typeError

/-- The value rank `rank` receives from `comm.scatter(chunks, root=0)` in
the body of `MPICommunicator.scatter`: the root computes
`np.array_split(args[i], size)` and chunk `rank` is delivered. -/
def scatterRecv (rank size : Nat) (args : List (List α)) (i : Nat) : List α :=
  (array_split (args.getD i []) size).getD rank []

/-- The loop `for i in range(len(args)): args[i] = comm.scatter(chunks, root=0)`
of `MPICommunicator.scatter`, with the remaining iteration count as fuel. -/
def scatterGo (rank size : Nat) : Nat → Nat → List (List α) → PyResult (List (List α))
  | 0, _, args => PyResult.ok args
  | n + 1, i, args =>
      match tupleSetItem args i (scatterRecv rank size args i) with
      | PyResult.ok args2 => scatterGo rank size n (i + 1) args2
      | PyResult.typeError => PyResult.typeError

/-- Model of `MPICommunicator.scatter(self, *args)`
(`src/tike/communicator.py` lines 34-42). -/
def mpiScatter (rank size : Nat) (args : List (List α)) : PyResult (List (List α)) :=
  scatterGo rank size args.length 0 args

/-- The loop `for i in range(len(args)): args[i] = comm.bcast(args[i], root=0)`
of `MPICommunicator.broadcast`; the received value is the root's `args[i]`. -/
def bcastGo [Inhabited β] (rank size : Nat) : Nat → Nat → List β → PyResult (List β)
  | 0, _, args => PyResult.ok args
  | n + 1, i, args =>
      match tupleSetItem args i (args.getD i default) with
      | PyResult.ok args2 => bcastGo rank size n (i + 1) args2
      | PyResult.typeError => PyResult.typeError

/-- Model of `MPICommunicator.broadcast(self, *args)`
(`src/tike/communicator.py` lines 44-48). -/
def mpiBroadcast [Inhabited β] (rank size : Nat) (args : List β) : PyResult (List β) :=
  bcastGo rank size args.length 0 args

/-- A dense 2-D complex array (one per-view slice such as `psi[view]`),
embedded as a total function over grid indices with values in the scalar
field `K`. -/
abbrev Slice (K : Type) := Nat → Nat → K

/-- The external numerical collaborators consumed by `admm`
(`tike.ptycho.reconstruct`, `tike.tomo.reconstruct`, `tike.tomo.forward`,
`wavenumber` from `tike.constants`, and the elementwise kernels `np.exp`,
`np.log` together with the literal `1j`), all opaque to the coordination
layer. -/
structure Externals (K Obj : Type) where
  wavenumber : K → K
  cexp : K → K
  clog : K → K
  cI : K
  ptychoRecon : Slice K → Slice K → K → K → Slice K → K → K → Slice K → Slice K → Slice K
  tomoRecon : Obj → List K → List (Slice K) → Obj
  tomoForward : Obj → List K → List (Slice K)

/-- The arguments the coordinating process (rank 0) passes to `admm`
(`src/tike/tike.py` lines 93-99): per-view detector data and geometry,
the shared probe and scalar parameters, and the iteration budget. -/
structure AdmmArgs (K Obj : Type) where
  obj : Obj
  data : List (Slice K)
  theta : List K
  v : List K
  h : List K
  probe : Slice K
  voxelsize : K
  energy : K
  rho : K
  gamma : K
  niter : Nat

/-- The per-rank immutable arrays after the scatter: local partitions of
`data`, `theta`, `v`, `h`. -/
structure RankEnv (K : Type) where
  data : List (Slice K)
  theta : List K
  v : List K
  h : List K

/-- The per-rank mutable arrays of the iteration loop: local partitions of
`psi`, `lamda`, `hobj`. -/
structure RankVar (K : Type) where
  psi : List (Slice K)
  lamda : List (Slice K)
  hobj : List (Slice K)

/-- The global state right after the SCATTERED phase (`src/tike/tike.py`
lines 125-155): per-rank partitions in rank order and the broadcast
scalars.  `gamma` holds the value every rank receives from the broadcast
on line 153, which transmits `rho`. -/
structure SetupState (K Obj : Type) where
  xRoot : Obj
  envs : List (RankEnv K)
  vars : List (RankVar K)
  probe : Slice K
  rho : K
  gamma : K
  voxelsize : K
  energy : K

/-- Default (empty) rank environment, used only as a `getD` fallback. -/
def defEnv {K : Type} : RankEnv K := ⟨[], [], [], []⟩

/-- Default (empty) rank variables, used only as a `getD` fallback. -/
def defVar {K : Type} : RankVar K := ⟨[], [], []⟩

/-- The all-zero slice, also the `getD` fallback for slice lists. -/
def zeroSlice {K : Type} [Field K] : Slice K := fun _ _ => 0

/-- The SCATTERED phase of `admm` (`src/tike/tike.py` lines 125-155), seen
globally for `N` ranks: rank 0 builds `psi = np.ones([T, Z, Y])` with
`T = theta.size` and splits `psi`, `data`, `theta`, `v`, `h` with
`np.array_split`; `comm.scatter` delivers chunk `r` to rank `r`; each rank
then forms `lamda = np.zeros_like(psi)` and `hobj = np.ones_like(psi)`;
finally `probe`, `rho`, `gamma`, `voxelsize`, `energy` are broadcast from
rank 0 — with `gamma = comm.bcast(rho, root=0)` on line 153, so the value
stored in the `gamma` field is the root's `rho`.  No shape check of any
kind is performed across `data`, `theta`, `v`, `h`. -/
def admmSetup {K : Type} [Field K] {Obj : Type} (N : Nat) (a : AdmmArgs K Obj) :
    SetupState K Obj :=
  { xRoot := a.obj
    envs := (List.range N).map (fun r =>
      { data := scatterChunk a.data N r
        theta := scatterChunk a.theta N r
        v := scatterChunk a.v N r
        h := scatterChunk a.h N r })
    vars := (List.range N).map (fun r =>
      let p := scatterChunk (List.replicate a.theta.length (fun _ _ => 1) : List (Slice K)) N r
      { psi := p
        lamda := p.map (fun _ => fun _ _ => 0)
        hobj := p.map (fun _ => fun _ _ => 1) })
    probe := a.probe
    rho := a.rho
    gamma := a.rho
    voxelsize := a.voxelsize
    energy := a.energy }

/-- The PTYCHO_STEP of one rank (`src/tike/tike.py` lines 162-170):
`for view in range(len(psi)): psi[view] = tike.ptycho.reconstruct(...)`.
Out-of-range indexing (possible only when the per-view partitions disagree
in length, where Python would raise `IndexError`) is totalized with zero
values. -/
def ptychoStep {K : Type} [Field K] {Obj : Type} (E : Externals K Obj)
    (S : SetupState K Obj) (env : RankEnv K) (var : RankVar K) : List (Slice K) :=
  (List.range var.psi.length).map (fun view =>
    E.ptychoRecon (env.data.getD view zeroSlice) S.probe
      (env.v.getD view 0) (env.h.getD view 0)
      (var.psi.getD view zeroSlice) S.rho S.gamma
      (var.hobj.getD view zeroSlice) (var.lamda.getD view zeroSlice))

/-- One rank's `phi = -1j / wavenumber(energy) * np.log(psi + lamda / rho) / voxelsize`
(`src/tike/tike.py` line 171), elementwise over the local views. -/
def phiLocal {K : Type} [Field K] {Obj : Type} (E : Externals K Obj)
    (S : SetupState K Obj) (psi lamda : List (Slice K)) : List (Slice K) :=
  List.zipWith (fun p l => fun z y =>
    -E.cI / E.wavenumber S.energy * E.clog (p z y + l z y / S.rho) / S.voxelsize) psi lamda

/-- The `theta` argument rank 0 passes to `tike.tomo.reconstruct`
(`src/tike/tike.py` line 178): its own local partition of `theta`. -/
def tomoThetaArg {K : Type} {Obj : Type} (S : SetupState K Obj) : List K :=
  (S.envs.getD 0 defEnv).theta

/-- The `line_integrals` argument rank 0 passes to `tike.tomo.reconstruct`:
every rank's `phi` (computed from the freshly updated `psi` and the current
`lamda`), gathered to rank 0 and concatenated along axis 0 in rank order
(`src/tike/tike.py` lines 171-176). -/
def tomoPhiArg {K : Type} [Field K] {Obj : Type} (E : Externals K Obj)
    (S : SetupState K Obj) (st : Obj × List (RankVar K)) : List (Slice K) :=
  (List.zipWith (fun env var => phiLocal E S (ptychoStep E S env var) var.lamda)
    S.envs st.2).flatten

/-- The TOMO_STEP on rank 0 (`src/tike/tike.py` lines 175-181): update `x`
from the gathered `phi`, passing the rank-0 local `theta`. -/
def iterX {K : Type} [Field K] {Obj : Type} (E : Externals K Obj)
    (S : SetupState K Obj) (st : Obj × List (RankVar K)) : Obj :=
  E.tomoRecon st.1 (tomoThetaArg S) (tomoPhiArg E S st)

/-- One rank's state after the MULTIPLIER_UPDATE (`src/tike/tike.py` lines
185-187), given the broadcast updated object `x`:
`line_integrals = tike.tomo.forward(obj=x, theta=theta) * voxelsize`,
`hobj = np.exp(1j * wavenumber(energy) * line_integrals)`,
`lamda = lamda + rho * (psi - hobj)`; `pv` pairs the rank's updated `psi`
with its previous variables. -/
def newVar {K : Type} [Field K] {Obj : Type} (E : Externals K Obj)
    (S : SetupState K Obj) (x : Obj) (env : RankEnv K)
    (pv : List (Slice K) × RankVar K) : RankVar K :=
  let hobjNew := (E.tomoForward x env.theta).map (fun s => fun z y =>
    E.cexp (E.cI * E.wavenumber S.energy * (s z y * S.voxelsize)))
  { psi := pv.1
    lamda := List.zipWith (fun l d => fun z y => l z y + S.rho * d z y) pv.2.lamda
      (List.zipWith (fun p hb => fun z y => p z y - hb z y) pv.1 hobjNew)
    hobj := hobjNew }

/-- One full iteration of the `admm` loop (`src/tike/tike.py` lines
159-187), seen globally: every rank runs its PTYCHO_STEP, `phi` is
gathered to rank 0, rank 0 runs the TOMO_STEP, the updated `x` is
broadcast, and every rank runs the MULTIPLIER_UPDATE with it. -/
def iterBody {K : Type} [Field K] {Obj : Type} (E : Externals K Obj)
    (S : SetupState K Obj) (st : Obj × List (RankVar K)) : Obj × List (RankVar K) :=
  (iterX E S st,
    List.zipWith (newVar E S (iterX E S st)) S.envs
      ((List.zipWith (fun env var => ptychoStep E S env var) S.envs st.2).zip st.2))

/-- The state after `n` iterations of the `admm` loop, starting from the
SCATTERED state. -/
def admmLoop {K : Type} [Field K] {Obj : Type} (E : Externals K Obj)
    (S : SetupState K Obj) (n : Nat) : Obj × List (RankVar K) :=
  (iterBody E S)^[n] (S.xRoot, S.vars)

/-- The value of `x` that `admm` returns on rank `r`
(`src/tike/tike.py` lines 125-196).  Before the loop, `x` is the `obj`
argument on rank 0 and the placeholder `None` on every other rank (line
141); each iteration ends by broadcasting rank 0's updated `x` to all
ranks (line 183), so with `niter ≥ 1` every rank returns the final rank-0
value, while with `niter = 0` the loop body never runs and each rank
returns its pre-loop `x`. -/
def admmX {K : Type} [Field K] {Obj : Type} (E : Externals K Obj) (N : Nat)
    (a : AdmmArgs K Obj) (r : Nat) : Option Obj :=
  if a.niter = 0 then (if r = 0 then some a.obj else none)
  else some (admmLoop E (admmSetup N a) a.niter).1

/-- Concrete externals over `ℚ` with identity-like kernels, used for
witnesses: the solvers echo their `psi`/`obj` inputs and the forward
projector returns one zero line integral per angle. -/
def idExternals : Externals ℚ ℕ :=
  { wavenumber := fun e => e
    cexp := fun z => z
    clog := fun z => z
    cI := 0
    ptychoRecon := fun _ _ _ _ p _ _ _ _ => p
    tomoRecon := fun ob _ _ => ob
    tomoForward := fun _ th => th.map (fun _ => fun _ _ => 0) }

/-- Concrete well-formed arguments (2 views, equal leading lengths) with
`niter = 0`, used for witnesses. -/
def cArgs0 : AdmmArgs ℚ ℕ :=
  { obj := 7
    data := List.replicate 2 (fun _ _ => 0)
    theta := [0, 1]
    v := [0, 0]
    h := [0, 0]
    probe := fun _ _ => 0
    voxelsize := 1
    energy := 1
    rho := 1
    gamma := 2
    niter := 0 }

/-- Concrete well-formed arguments with `rho = 0` and `niter = 1`, used
for the C7 witness. -/
def cArgsRho0 : AdmmArgs ℚ ℕ :=
  { obj := 7
    data := List.replicate 2 (fun _ _ => 0)
    theta := [0, 1]
    v := [0, 0]
    h := [0, 0]
    probe := fun _ _ => 0
    voxelsize := 1
    energy := 1
    rho := 0
    gamma := 2
    niter := 1 }

/-- Concrete arguments whose per-view arrays disagree in leading length
(`data` has 2 views, `theta`, `v`, `h` have 3), used for C5. -/
def mismatchArgs : AdmmArgs ℚ ℕ :=
  { obj := 7
    data := List.replicate 2 (fun _ _ => 0)
    theta := [0, 1, 2]
    v := [0, 0, 0]
    h := [0, 0, 0]
    probe := fun _ _ => 0
    voxelsize := 1
    energy := 1
    rho := 1
    gamma := 2
    niter := 1 }

end Tike

namespace Tike

lemma chunkSizes_length (L N : Nat) (hN : 0 < N) : (chunkSizes L N).length = N := by
  have hm : L % N < N := Nat.mod_lt _ hN
  simp [chunkSizes]
  omega

lemma chunkSizes_sum (L N : Nat) : (chunkSizes L N).sum = L := by
  have hd := Nat.div_add_mod L N
  rcases Nat.eq_zero_or_pos N with h0 | hN
  · subst h0
    simp [chunkSizes, List.sum_const_nat]
  · have hm : L % N < N := Nat.mod_lt _ hN
    have h1 : (chunkSizes L N).sum = L % N * (L / N + 1) + (N - L % N) * (L / N) := by
      simp [chunkSizes, List.sum_append, List.sum_const_nat]
    rw [h1, Nat.mul_add, Nat.mul_one, Nat.sub_mul]
    have hAB : L % N * (L / N) ≤ N * (L / N) :=
      Nat.mul_le_mul_right _ (Nat.le_of_lt hm)
    omega

lemma splitSizes_length (A : List α) (ss : List Nat) :
    (splitSizes A ss).length = ss.length := by
  induction ss generalizing A with
  | nil => simp [splitSizes]
  | cons s ss ih => simp [splitSizes, ih]

lemma splitSizes_flatten (A : List α) (ss : List Nat) :
    (splitSizes A ss).flatten = A.take ss.sum := by
  induction ss generalizing A with
  | nil => simp [splitSizes]
  | cons s ss ih =>
      rw [List.sum_cons, List.take_add]
      simp [splitSizes, ih]

lemma splitSizes_getD_length (A : List α) (ss : List Nat) (r : Nat)
    (h : ss.sum ≤ A.length) :
    ((splitSizes A ss).getD r []).length = ss.getD r 0 := by
  induction ss generalizing A r with
  | nil => simp [splitSizes]
  | cons s ss ih =>
      have hs : s + ss.sum ≤ A.length := by simpa using h
      cases r with
      | zero =>
          simp only [splitSizes, List.getD_cons_zero, List.length_take]
          omega
      | succ r =>
          simp only [splitSizes, List.getD_cons_succ]
          exact ih _ _ (by simp; omega)

lemma array_split_length (A : List α) (N : Nat) (hN : 0 < N) :
    (array_split A N).length = N := by
  rw [array_split, splitSizes_length, chunkSizes_length _ _ hN]

lemma array_split_flatten (A : List α) (N : Nat) :
    (array_split A N).flatten = A := by
  rw [array_split, splitSizes_flatten, chunkSizes_sum, List.take_length]

lemma scatterChunk_length (A : List α) (N r : Nat) :
    (scatterChunk A N r).length = (chunkSizes A.length N).getD r 0 := by
  apply splitSizes_getD_length
  rw [chunkSizes_sum]

lemma range_map_getD (l : List β) (d : β) :
    (List.range l.length).map (fun i => l.getD i d) = l := by
  induction l with
  | nil => simp
  | cons a t ih =>
      rw [List.length_cons, List.range_succ_eq_map, List.map_cons, List.map_map]
      simp only [List.getD_cons_zero, Function.comp_def, List.getD_cons_succ]
      rw [ih]

lemma range_map_scatterChunk (A : List α) (N : Nat) (hN : 0 < N) :
    (List.range N).map (fun r => scatterChunk A N r) = array_split A N := by
  have h := range_map_getD (array_split A N) ([] : List α)
  rw [array_split_length A N hN] at h
  simpa [scatterChunk] using h

/-- C1: scattering an array of leading-axis length `L` over `N ≤ L` processes
splits it into `N` contiguous chunks, one per process in rank order, and
flattening (concatenating along axis 0) all per-rank chunks in rank order
reproduces the original array exactly. -/
theorem scatter_roundtrip (A : List α) (N : Nat) (hN : 0 < N) (hNL : N ≤ A.length) :
    (array_split A N).length = N ∧
    ((List.range N).map (fun r => scatterChunk A N r)).flatten = A := by
  refine ⟨array_split_length A N hN, ?_⟩
  rw [range_map_scatterChunk A N hN, array_split_flatten]

/-- Witness for C1 at the concrete input `A = [10, 20, 30]`, `N = 2`. -/
theorem scatter_roundtrip_witness :
    (0 < 2 ∧ 2 ≤ ([10, 20, 30] : List Nat).length) ∧
      ((array_split ([10, 20, 30] : List Nat) 2).length = 2 ∧
        ((List.range 2).map (fun r => scatterChunk ([10, 20, 30] : List Nat) 2 r)).flatten
          = [10, 20, 30]) :=
  ⟨⟨by decide, by decide⟩, scatter_roundtrip ([10, 20, 30] : List Nat) 2 (by decide) (by decide)⟩

/-- C4: at the concrete input `A = [5]` (partition axis of length 1) with 2
processes, the split silently produces a zero-size partition for rank 1 and
no error of any kind: the code defines no `PartitionError`, the scatter
completes, and the flattened round trip still returns `A`. -/
theorem scatter_small_axis_silent_empty :
    array_split ([5] : List Nat) 2 = [[5], []] ∧
    scatterChunk ([5] : List Nat) 2 1 = [] ∧
    ((List.range 2).map (fun r => scatterChunk ([5] : List Nat) 2 r)).flatten = [5] := by
  refine ⟨by decide, by decide, by decide⟩

lemma zipWith_map_same (f : β → γ → δ) (g1 : α → β) (g2 : α → γ) (l : List α) :
    List.zipWith f (l.map g1) (l.map g2) = l.map (fun x => f (g1 x) (g2 x)) := by
  induction l with
  | nil => rfl
  | cons a t ih => simp [ih]

lemma concatAxis1_of_maps (W : List (List α)) (g : Nat → List α → List α)
    (ps : List Nat) (hps : ps ≠ []) :
    concatAxis1 (ps.map (fun p => W.map (g p)))
      = W.map (fun row => (ps.map (fun p => g p row)).flatten) := by
  induction ps with
  | nil => cases hps rfl
  | cons p ps ih =>
      cases ps with
      | nil => simp [concatAxis1]
      | cons q ps2 =>
          rw [List.map_cons, List.map_cons]
          rw [show concatAxis1 (W.map (g p) :: (W.map (g q) :: ps2.map (fun p => W.map (g p))))
                = List.zipWith (fun r s => r ++ s) (W.map (g p))
                    (concatAxis1 (W.map (g q) :: ps2.map (fun p => W.map (g p)))) from rfl]
          rw [show (W.map (g q) :: ps2.map (fun p => W.map (g p)))
                = (q :: ps2).map (fun p => W.map (g p)) from rfl]
          rw [ih (by simp), zipWith_map_same]
          simp

/-- C2: the re-slice round trip.  Every rank `r` starts from its
tomography-domain partition `colSplit W N r` of a globally consistent 2-D
array `W`; applying `get_ptycho_slice` (allgather, concatenate along the
spatial axis, re-split along the view axis) and then `get_tomo_slice`
(allgather, concatenate along the view axis, re-split along the spatial
axis) returns exactly the original tomography-domain partition, provided
no rank mutates its partition in between (the theorem feeds the unmutated
outputs of the first call to the second). -/
theorem reslice_roundtrip (W : List (List α)) (S N r : Nat)
    (hrow : ∀ row ∈ W, row.length = S) (hN : 0 < N) (hr : r < N) :
    get_tomo_slice
        ((List.range N).map (fun q =>
          get_ptycho_slice ((List.range N).map (fun p => colSplit W N p)) N q)) N r
      = colSplit W N r := by
  have hne : (List.range N) ≠ [] := by
    simp only [ne_eq, List.range_eq_nil]
    omega
  have h1 : concatAxis1 ((List.range N).map (fun p => colSplit W N p)) = W := by
    simp only [colSplit]
    rw [concatAxis1_of_maps W (fun p row => scatterChunk row N p) _ hne]
    have hrows : ∀ row ∈ W,
        ((List.range N).map (fun p => scatterChunk row N p)).flatten = row := by
      intro row _
      rw [range_map_scatterChunk row N hN, array_split_flatten]
    calc W.map (fun row => ((List.range N).map (fun p => scatterChunk row N p)).flatten)
        = W.map id := List.map_congr_left hrows
      _ = W := List.map_id W
  have h2 : (List.range N).map (fun q =>
        get_ptycho_slice ((List.range N).map (fun p => colSplit W N p)) N q)
      = array_split W N := by
    simp only [get_ptycho_slice, h1]
    exact range_map_scatterChunk W N hN
  rw [get_tomo_slice, h2, array_split_flatten]

/-- Witness for C2 at the concrete input `W = [[1, 2], [3, 4]]`, `N = 2`,
rank `r = 1`. -/
theorem reslice_roundtrip_witness :
    ((∀ row ∈ ([[1, 2], [3, 4]] : List (List Nat)), row.length = 2) ∧ 0 < 2 ∧ 1 < 2) ∧
      get_tomo_slice
          ((List.range 2).map (fun q =>
            get_ptycho_slice
              ((List.range 2).map (fun p =>
                colSplit ([[1, 2], [3, 4]] : List (List Nat)) 2 p)) 2 q)) 2 1
        = colSplit ([[1, 2], [3, 4]] : List (List Nat)) 2 1 :=
  ⟨⟨by decide, by decide, by decide⟩,
    reslice_roundtrip ([[1, 2], [3, 4]] : List (List Nat)) 2 2 1
      (by decide) (by decide) (by decide)⟩

/-- C9: with at least one argument, `MPICommunicator.scatter` and
`MPICommunicator.broadcast` raise `TypeError` before returning any result,
because the loop body assigns into the immutable `args` tuple; neither
method can deliver its documented postcondition on any rank. -/
theorem scatter_broadcast_always_typeError [Inhabited β] (rank size : Nat)
    (args : List (List α)) (bargs : List β)
    (hs : args ≠ []) (hb : bargs ≠ []) :
    mpiScatter rank size args = PyResult.typeError ∧
    mpiBroadcast rank size bargs = PyResult.typeError := by
  constructor
  · cases args with
    | nil => cases hs rfl
    | cons a t => rfl
  · cases bargs with
    | nil => cases hb rfl
    | cons b t => rfl

/-- Witness for C9 at concrete inputs with one argument each. -/
theorem scatter_broadcast_always_typeError_witness :
    (([[1]] : List (List Nat)) ≠ [] ∧ ([0] : List Nat) ≠ []) ∧
      (mpiScatter 0 1 ([[1]] : List (List Nat)) = PyResult.typeError ∧
        mpiBroadcast 0 1 ([0] : List Nat) = PyResult.typeError) :=
  ⟨⟨by decide, by decide⟩,
    scatter_broadcast_always_typeError 0 1 ([[1]] : List (List Nat)) ([0] : List Nat)
      (by decide) (by decide)⟩

/-- C3: the setup broadcast of the gather-based `admm` transmits `rho` in
place of `gamma` (`gamma = comm.bcast(rho, root=0)`, `src/tike/tike.py`
line 153): after the SCATTERED phase the gamma value every rank holds (and
passes to the ptychography solver) equals the coordinating process's
`rho`, regardless of the `gamma` argument passed to `admm`. -/
theorem setup_gamma_eq_rho {K : Type} [Field K] {Obj : Type} (N : Nat)
    (a : AdmmArgs K Obj) :
    (admmSetup N a).gamma = a.rho ∧ (admmSetup N a).rho = a.rho :=
  ⟨rfl, rfl⟩

/-- C5: at the concrete input `mismatchArgs`, whose per-view arrays
disagree in leading length (`data` has 2 views, `theta`, `v`, `h` have 3),
the SCATTERED phase completes without raising anything: no
`ShapeMismatchError` exists anywhere in the code and `admm` performs no
cross-array length check, so rank 0 simply ends up holding partitions of
unequal lengths. -/
theorem setup_accepts_shape_mismatch :
    ((admmSetup 1 mismatchArgs).envs.getD 0 defEnv).data.length = 2 ∧
    ((admmSetup 1 mismatchArgs).envs.getD 0 defEnv).theta.length = 3 ∧
    ((admmSetup 1 mismatchArgs).vars.getD 0 defVar).psi.length = 3 := by
  refine ⟨rfl, rfl, rfl⟩

/-- C6 counterexample: with 2 processes and `niter = 0`, the non-root rank
does not return `x` equal to the `obj` argument — it returns the `None`
placeholder (`x` is only assigned on other ranks by the in-loop broadcast,
which never runs), so the claim fails as stated at this concrete input. -/
theorem niter_zero_nonroot_counterexample :
    admmX idExternals 2 cArgs0 1 ≠ some cArgs0.obj := by
  decide

/-- C6 amended: with `niter = 0` the coordinator performs the SCATTERED
setup only and returns `x` unchanged from its pre-loop value: the `obj`
argument on the coordinating process, and the placeholder `None` on every
non-coordinating process. -/
theorem admm_niter_zero {K : Type} [Field K] {Obj : Type} (E : Externals K Obj)
    (N : Nat) (a : AdmmArgs K Obj) (h0 : a.niter = 0) (r : Nat) (hr : r ≠ 0) :
    admmX E N a 0 = some a.obj ∧ admmX E N a r = none := by
  constructor
  · simp [admmX, h0]
  · simp [admmX, h0, hr]

/-- Witness for the amended C6 at `idExternals`, `N = 2`, `cArgs0`
(`niter = 0`), rank 1. -/
theorem admm_niter_zero_witness :
    admmX idExternals 2 cArgs0 0 = some cArgs0.obj ∧
    admmX idExternals 2 cArgs0 1 = none :=
  admm_niter_zero idExternals 2 cArgs0 rfl 1 (by decide)

lemma getD_zipWith {f : α → β → γ} (as : List α) (bs : List β) (i : Nat)
    (da : α) (db : β) (dc : γ) (h1 : i < as.length) (h2 : i < bs.length) :
    (List.zipWith f as bs).getD i dc = f (as.getD i da) (bs.getD i db) := by
  have hz : i < (List.zipWith f as bs).length := by
    rw [List.length_zipWith]
    omega
  rw [List.getD_eq_getElem _ _ hz, List.getD_eq_getElem _ _ h1, List.getD_eq_getElem _ _ h2]
  exact List.getElem_zipWith

lemma getD_zip (as : List α) (bs : List β) (i : Nat) (da : α) (db : β)
    (h1 : i < as.length) (h2 : i < bs.length) :
    (as.zip bs).getD i (da, db) = (as.getD i da, bs.getD i db) := by
  rw [List.zip_eq_zipWith]
  exact getD_zipWith as bs i da db (da, db) h1 h2

lemma getD_map_of_lt (f : α → β) (l : List α) (i : Nat) (da : α) (db : β)
    (h : i < l.length) : (l.map f).getD i db = f (l.getD i da) := by
  have hm : i < (l.map f).length := by simpa using h
  rw [List.getD_eq_getElem _ _ hm, List.getD_eq_getElem _ _ h, List.getElem_map]

lemma getD_range_map (g : Nat → β) (N i : Nat) (d : β) (h : i < N) :
    ((List.range N).map g).getD i d = g i := by
  have hr : i < (List.range N).length := by simpa using h
  rw [getD_map_of_lt g _ i 0 d hr, List.getD_eq_getElem _ _ hr, List.getElem_range]

lemma ext_getD (l1 l2 : List α) (d : α) (hlen : l1.length = l2.length)
    (h : ∀ i, i < l1.length → l1.getD i d = l2.getD i d) : l1 = l2 := by
  apply List.ext_getElem hlen
  intro i h1 h2
  have hi := h i h1
  rwa [List.getD_eq_getElem _ _ h1, List.getD_eq_getElem _ _ h2] at hi

lemma getD_mem_or_eq (l : List α) (i : Nat) (d : α) :
    l.getD i d ∈ l ∨ l.getD i d = d := by
  by_cases h : i < l.length
  · left
    rw [List.getD_eq_getElem _ _ h]
    exact List.getElem_mem h
  · right
    exact List.getD_eq_default _ _ (by omega)

lemma exists_of_mem_zipWith {f : α → β → γ} {as : List α} {bs : List β} {c : γ}
    (h : c ∈ List.zipWith f as bs) : ∃ a b, a ∈ as ∧ b ∈ bs ∧ c = f a b := by
  induction as generalizing bs with
  | nil => simp at h
  | cons a as ih =>
      cases bs with
      | nil => simp at h
      | cons b bs =>
          rw [List.zipWith_cons_cons, List.mem_cons] at h
          rcases h with h | h
          · exact ⟨a, b, by simp, by simp, h⟩
          · rcases ih h with ⟨x, y, hx, hy, hc⟩
            exact ⟨x, y, List.mem_cons_of_mem _ hx, List.mem_cons_of_mem _ hy, hc⟩

lemma admmSetup_envs_length {K : Type} [Field K] {Obj : Type} (N : Nat)
    (a : AdmmArgs K Obj) : (admmSetup N a).envs.length = N := by
  simp [admmSetup]

lemma admmSetup_vars_length {K : Type} [Field K] {Obj : Type} (N : Nat)
    (a : AdmmArgs K Obj) : (admmSetup N a).vars.length = N := by
  simp [admmSetup]

lemma admmSetup_envs_getD {K : Type} [Field K] {Obj : Type} (N : Nat)
    (a : AdmmArgs K Obj) (r : Nat) (hr : r < N) :
    (admmSetup N a).envs.getD r defEnv =
      { data := scatterChunk a.data N r
        theta := scatterChunk a.theta N r
        v := scatterChunk a.v N r
        h := scatterChunk a.h N r } := by
  simp only [admmSetup]
  exact getD_range_map _ N r defEnv hr

lemma admmSetup_vars_getD {K : Type} [Field K] {Obj : Type} (N : Nat)
    (a : AdmmArgs K Obj) (r : Nat) (hr : r < N) :
    (admmSetup N a).vars.getD r defVar =
      { psi := scatterChunk (List.replicate a.theta.length (fun _ _ => 1) : List (Slice K)) N r
        lamda := (scatterChunk (List.replicate a.theta.length (fun _ _ => 1) : List (Slice K)) N r).map
          (fun _ => fun _ _ => 0)
        hobj := (scatterChunk (List.replicate a.theta.length (fun _ _ => 1) : List (Slice K)) N r).map
          (fun _ => fun _ _ => 1) } := by
  simp only [admmSetup]
  exact getD_range_map _ N r defVar hr

lemma admmLoop_zero {K : Type} [Field K] {Obj : Type} (E : Externals K Obj)
    (S : SetupState K Obj) : admmLoop E S 0 = (S.xRoot, S.vars) := rfl

lemma admmLoop_succ {K : Type} [Field K] {Obj : Type} (E : Externals K Obj)
    (S : SetupState K Obj) (n : Nat) :
    admmLoop E S (n + 1) = iterBody E S (admmLoop E S n) := by
  simp [admmLoop, Function.iterate_succ_apply']

lemma iterBody_vars_length {K : Type} [Field K] {Obj : Type} (E : Externals K Obj)
    (S : SetupState K Obj) (st : Obj × List (RankVar K)) :
    (iterBody E S st).2.length = min S.envs.length st.2.length := by
  simp only [iterBody, List.length_zipWith, List.length_zip]
  omega

lemma admmLoop_vars_length {K : Type} [Field K] {Obj : Type} (E : Externals K Obj)
    (N : Nat) (a : AdmmArgs K Obj) (n : Nat) :
    (admmLoop E (admmSetup N a) n).2.length = N := by
  induction n with
  | zero =>
      rw [admmLoop_zero]
      exact admmSetup_vars_length N a
  | succ n ih =>
      rw [admmLoop_succ, iterBody_vars_length, ih, admmSetup_envs_length]
      exact min_self N

lemma iterBody_vars_getD {K : Type} [Field K] {Obj : Type} (E : Externals K Obj)
    (S : SetupState K Obj) (st : Obj × List (RankVar K)) (r : Nat)
    (hr : r < S.envs.length) (hlen : st.2.length = S.envs.length) :
    (iterBody E S st).2.getD r defVar
      = newVar E S (iterX E S st) (S.envs.getD r defEnv)
          (ptychoStep E S (S.envs.getD r defEnv) (st.2.getD r defVar),
            st.2.getD r defVar) := by
  have hps : (List.zipWith (fun env var => ptychoStep E S env var) S.envs st.2).length
      = S.envs.length := by
    rw [List.length_zipWith, hlen]
    exact min_self _
  have hzip : ((List.zipWith (fun env var => ptychoStep E S env var) S.envs st.2).zip st.2).length
      = S.envs.length := by
    rw [List.length_zip, hps, hlen]
    exact min_self _
  simp only [iterBody]
  rw [getD_zipWith S.envs _ r defEnv ([], defVar) defVar hr (by rw [hzip]; exact hr)]
  rw [getD_zip _ _ r [] defVar (by rw [hps]; exact hr) (by rw [hlen]; exact hr)]
  rw [getD_zipWith S.envs st.2 r defEnv defVar [] hr (by rw [hlen]; exact hr)]

lemma ptychoStep_length {K : Type} [Field K] {Obj : Type} (E : Externals K Obj)
    (S : SetupState K Obj) (env : RankEnv K) (var : RankVar K) :
    (ptychoStep E S env var).length = var.psi.length := by
  simp [ptychoStep]

lemma admmLoop_psi_length {K : Type} [Field K] {Obj : Type} (E : Externals K Obj)
    (N : Nat) (a : AdmmArgs K Obj) (n r : Nat) :
    ((admmLoop E (admmSetup N a) n).2.getD r defVar).psi.length
      = ((admmSetup N a).vars.getD r defVar).psi.length := by
  induction n with
  | zero => rw [admmLoop_zero]
  | succ n ih =>
      by_cases hr : r < N
      · rw [admmLoop_succ, iterBody_vars_getD E (admmSetup N a) _ r
            (by rw [admmSetup_envs_length]; exact hr)
            (by rw [admmLoop_vars_length, admmSetup_envs_length])]
        simp only [newVar]
        rw [ptychoStep_length]
        exact ih
      · push_neg at hr
        rw [List.getD_eq_default _ _ (by rw [admmLoop_vars_length]; exact hr),
            List.getD_eq_default _ _ (by rw [admmSetup_vars_length]; exact hr)]

/-- C8: on every process and at every iteration, the local partitions of
`theta`, `v`, `h`, `psi`, `data` have equal lengths, given that the global
per-view arrays agree in leading length: the scatter cuts equal-length
lists at identical chunk boundaries (`psi` is built with
`T = theta.size`), and the only per-view list the loop reassigns, `psi`,
is rewritten index-by-index (`for view in range(len(psi))`), which
preserves its length. -/
theorem view_partition_lengths {K : Type} [Field K] {Obj : Type}
    (E : Externals K Obj) (N : Nat) (a : AdmmArgs K Obj)
    (hd : a.data.length = a.theta.length) (hv : a.v.length = a.theta.length)
    (hh : a.h.length = a.theta.length) (n r : Nat) :
    ((admmSetup N a).envs.getD r defEnv).data.length
        = ((admmSetup N a).envs.getD r defEnv).theta.length ∧
    ((admmSetup N a).envs.getD r defEnv).v.length
        = ((admmSetup N a).envs.getD r defEnv).theta.length ∧
    ((admmSetup N a).envs.getD r defEnv).h.length
        = ((admmSetup N a).envs.getD r defEnv).theta.length ∧
    ((admmLoop E (admmSetup N a) n).2.getD r defVar).psi.length
        = ((admmSetup N a).envs.getD r defEnv).theta.length := by
  by_cases hr : r < N
  · rw [admmSetup_envs_getD N a r hr]
    dsimp only
    refine ⟨?_, ?_, ?_, ?_⟩
    · rw [scatterChunk_length, scatterChunk_length, hd]
    · rw [scatterChunk_length, scatterChunk_length, hv]
    · rw [scatterChunk_length, scatterChunk_length, hh]
    · rw [admmLoop_psi_length, admmSetup_vars_getD N a r hr]
      dsimp only
      rw [scatterChunk_length, scatterChunk_length, List.length_replicate]
  · push_neg at hr
    rw [List.getD_eq_default _ _ (by rw [admmSetup_envs_length]; exact hr),
        List.getD_eq_default _ _ (by rw [admmLoop_vars_length]; exact hr)]
    exact ⟨rfl, rfl, rfl, rfl⟩

/-- Witness for C8 at `idExternals`, `N = 2`, the well-formed `cArgs0`,
iteration 1, rank 0. -/
theorem view_partition_lengths_witness :
    ((admmSetup 2 cArgs0).envs.getD 0 defEnv).data.length
        = ((admmSetup 2 cArgs0).envs.getD 0 defEnv).theta.length ∧
    ((admmSetup 2 cArgs0).envs.getD 0 defEnv).v.length
        = ((admmSetup 2 cArgs0).envs.getD 0 defEnv).theta.length ∧
    ((admmSetup 2 cArgs0).envs.getD 0 defEnv).h.length
        = ((admmSetup 2 cArgs0).envs.getD 0 defEnv).theta.length ∧
    ((admmLoop idExternals (admmSetup 2 cArgs0) 1).2.getD 0 defVar).psi.length
        = ((admmSetup 2 cArgs0).envs.getD 0 defEnv).theta.length :=
  view_partition_lengths idExternals 2 cArgs0 rfl rfl rfl 1 0

lemma lamda_all_zero {K : Type} [Field K] {Obj : Type} (E : Externals K Obj)
    (N : Nat) (a : AdmmArgs K Obj) (hrho : a.rho = 0) (n : Nat) :
    ∀ var ∈ (admmLoop E (admmSetup N a) n).2, ∀ s ∈ var.lamda, ∀ z y, s z y = 0 := by
  induction n with
  | zero =>
      rw [admmLoop_zero]
      intro var hvar s hs z y
      simp only [admmSetup] at hvar
      rw [List.mem_map] at hvar
      obtain ⟨r, _, rfl⟩ := hvar
      rw [List.mem_map] at hs
      obtain ⟨t, _, rfl⟩ := hs
      rfl
  | succ n ih =>
      rw [admmLoop_succ]
      intro var hvar s hs z y
      simp only [iterBody] at hvar
      obtain ⟨env, pv, henv, hpv, rfl⟩ := exists_of_mem_zipWith hvar
      obtain ⟨p1, p2⟩ := pv
      simp only [newVar] at hs
      obtain ⟨l, d, hl, hd2, rfl⟩ := exists_of_mem_zipWith hs
      have hmem : p2 ∈ (admmLoop E (admmSetup N a) n).2 := (List.of_mem_zip hpv).2
      have hl0 : ∀ z y, l z y = 0 := ih p2 hmem l hl
      have hSrho : (admmSetup N a).rho = 0 := hrho
      simp [hSrho, hl0]

/-- C7: with `rho = 0` the multiplier update `lamda = lamda + rho * (psi - hobj)`
is a no-op: `lamda` is initialized to zeros by the setup and every entry
of every rank's `lamda` is still zero after every iteration (the guarded
division `lamda / rho` in the phi step does not feed back into `lamda`). -/
theorem rho_zero_lamda_stays_zero {K : Type} [Field K] {Obj : Type}
    (E : Externals K Obj) (N : Nat) (a : AdmmArgs K Obj) (hrho : a.rho = 0)
    (n r j z y : Nat) :
    ((admmLoop E (admmSetup N a) n).2.getD r defVar).lamda.getD j zeroSlice z y = 0 := by
  rcases getD_mem_or_eq (admmLoop E (admmSetup N a) n).2 r defVar with hvar | hvar
  · rcases getD_mem_or_eq ((admmLoop E (admmSetup N a) n).2.getD r defVar).lamda j
        zeroSlice with hs | hs
    · exact lamda_all_zero E N a hrho n _ hvar _ hs z y
    · rw [hs]
      rfl
  · rw [hvar]
    rfl

/-- Witness for C7 at `idExternals`, `N = 1`, `cArgsRho0` (`rho = 0`),
iteration 1, rank 0, view 0, grid point (0, 0). -/
theorem rho_zero_lamda_stays_zero_witness :
    ((admmLoop idExternals (admmSetup 1 cArgsRho0) 1).2.getD 0 defVar).lamda.getD 0
        zeroSlice 0 0 = 0 :=
  rho_zero_lamda_stays_zero idExternals 1 cArgsRho0 rfl 1 0 0 0 0

lemma admmLoop_lens {K : Type} [Field K] {Obj : Type} (E : Externals K Obj)
    (N : Nat) (a : AdmmArgs K Obj)
    (hf : ∀ ob th, (E.tomoForward ob th).length = th.length) (n r : Nat) (hr : r < N) :
    ((admmLoop E (admmSetup N a) n).2.getD r defVar).psi.length
        = (chunkSizes a.theta.length N).getD r 0 ∧
    ((admmLoop E (admmSetup N a) n).2.getD r defVar).lamda.length
        = (chunkSizes a.theta.length N).getD r 0 ∧
    ((admmLoop E (admmSetup N a) n).2.getD r defVar).hobj.length
        = (chunkSizes a.theta.length N).getD r 0 := by
  have hth : ((admmSetup N a).envs.getD r defEnv).theta.length
      = (chunkSizes a.theta.length N).getD r 0 := by
    rw [admmSetup_envs_getD N a r hr]
    dsimp only
    rw [scatterChunk_length]
  induction n with
  | zero =>
      rw [admmLoop_zero, admmSetup_vars_getD N a r hr]
      dsimp only
      refine ⟨?_, ?_, ?_⟩
      · rw [scatterChunk_length, List.length_replicate]
      · rw [List.length_map, scatterChunk_length, List.length_replicate]
      · rw [List.length_map, scatterChunk_length, List.length_replicate]
  | succ n ih =>
      obtain ⟨h1, h2, h3⟩ := ih
      rw [admmLoop_succ, iterBody_vars_getD E (admmSetup N a) _ r
          (by rw [admmSetup_envs_length]; exact hr)
          (by rw [admmLoop_vars_length, admmSetup_envs_length])]
      simp only [newVar]
      refine ⟨?_, ?_, ?_⟩
      · rw [ptychoStep_length]
        exact h1
      · rw [List.length_zipWith, List.length_zipWith, ptychoStep_length, h1, h2,
            List.length_map, hf, hth]
        simp
      · rw [List.length_map, hf, hth]

lemma tomoThetaArg_length {K : Type} [Field K] {Obj : Type} (N : Nat)
    (a : AdmmArgs K Obj) (hN : 0 < N) :
    (tomoThetaArg (admmSetup N a)).length = (chunkSizes a.theta.length N).getD 0 0 := by
  rw [tomoThetaArg, admmSetup_envs_getD N a 0 hN]
  dsimp only
  rw [scatterChunk_length]

lemma tomoPhiArg_length {K : Type} [Field K] {Obj : Type} (E : Externals K Obj)
    (N : Nat) (a : AdmmArgs K Obj)
    (hf : ∀ ob th, (E.tomoForward ob th).length = th.length) (hN : 0 < N) (n : Nat) :
    (tomoPhiArg E (admmSetup N a) (admmLoop E (admmSetup N a) n)).length
      = a.theta.length := by
  rw [tomoPhiArg, List.length_flatten]
  have hL : (List.zipWith
        (fun env var => phiLocal E (admmSetup N a) (ptychoStep E (admmSetup N a) env var) var.lamda)
        (admmSetup N a).envs (admmLoop E (admmSetup N a) n).2).map List.length
      = chunkSizes a.theta.length N := by
    refine ext_getD _ _ 0 ?_ ?_
    · rw [List.length_map, List.length_zipWith, admmSetup_envs_length,
          admmLoop_vars_length, chunkSizes_length _ _ hN]
      exact min_self N
    · intro i hi
      have hiN : i < N := by
        rw [List.length_map, List.length_zipWith, admmSetup_envs_length,
            admmLoop_vars_length] at hi
        omega
      rw [getD_map_of_lt List.length _ i [] 0
          (by rw [List.length_zipWith, admmSetup_envs_length, admmLoop_vars_length]; omega)]
      rw [getD_zipWith _ _ i defEnv defVar []
          (by rw [admmSetup_envs_length]; exact hiN)
          (by rw [admmLoop_vars_length]; exact hiN)]
      have hlen := admmLoop_lens E N a hf n i hiN
      simp only [phiLocal]
      rw [List.length_zipWith, ptychoStep_length, hlen.1, hlen.2.1, min_self]
  rw [hL, chunkSizes_sum]

lemma chunkSizes_getD_zero (L N : Nat) (hN : 0 < N) :
    (chunkSizes L N).getD 0 0 = if 0 < L % N then L / N + 1 else L / N := by
  rcases h : L % N with _ | m
  · cases N with
    | zero => omega
    | succ k => simp [chunkSizes, h, List.replicate_succ]
  · simp [chunkSizes, h, List.replicate_succ]

lemma chunk_zero_eq_iff (T N : Nat) (hN : 0 < N) (hNT : N ≤ T) :
    ((chunkSizes T N).getD 0 0 = T) ↔ N = 1 := by
  rw [chunkSizes_getD_zero T N hN]
  constructor
  · intro h
    by_contra hne
    have hN2 : 2 ≤ N := by omega
    have hd := Nat.div_add_mod T N
    have hm : T % N < N := Nat.mod_lt _ hN
    have hq : 1 ≤ T / N := (Nat.one_le_div_iff hN).mpr hNT
    have hmul : 2 * (T / N) ≤ N * (T / N) := Nat.mul_le_mul_right _ hN2
    split_ifs at h with hpos
    all_goals
      (generalize hgq : T / N = q at h hd hq hmul
       generalize hgm : T % N = m at h hd hm hpos
       generalize hgP : N * q = P at hd hmul
       omega)
  · rintro rfl
    simp [Nat.mod_one, Nat.div_one]

/-- C10: in the gather-based `admm` the TOMO_STEP on rank 0 passes its own
local `theta` partition (the first chunk of the split, of length
`ceil(T / N)`) together with the fully gathered `phi` of leading length
`T`; within the scatter-valid regime `0 < N ≤ T` the two leading lengths
are equal exactly when `N = 1`, so they disagree on every multi-process
run. -/
theorem tomo_step_length_mismatch {K : Type} [Field K] {Obj : Type}
    (E : Externals K Obj) (N : Nat) (a : AdmmArgs K Obj)
    (hf : ∀ ob th, (E.tomoForward ob th).length = th.length)
    (hN : 0 < N) (hNT : N ≤ a.theta.length) (n : Nat) :
    (tomoThetaArg (admmSetup N a)).length = (chunkSizes a.theta.length N).getD 0 0 ∧
    (tomoPhiArg E (admmSetup N a) (admmLoop E (admmSetup N a) n)).length = a.theta.length ∧
    ((tomoThetaArg (admmSetup N a)).length
        = (tomoPhiArg E (admmSetup N a) (admmLoop E (admmSetup N a) n)).length ↔ N = 1) := by
  refine ⟨tomoThetaArg_length N a hN, tomoPhiArg_length E N a hf hN n, ?_⟩
  rw [tomoThetaArg_length N a hN, tomoPhiArg_length E N a hf hN n]
  exact chunk_zero_eq_iff a.theta.length N hN hNT

/-- Witness for C10 at `idExternals`, `N = 2`, `cArgs0` (2 views),
iteration state after 1 loop step. -/
theorem tomo_step_length_mismatch_witness :
    (tomoThetaArg (admmSetup 2 cArgs0)).length = (chunkSizes cArgs0.theta.length 2).getD 0 0 ∧
    (tomoPhiArg idExternals (admmSetup 2 cArgs0)
        (admmLoop idExternals (admmSetup 2 cArgs0) 1)).length = cArgs0.theta.length ∧
    ((tomoThetaArg (admmSetup 2 cArgs0)).length
        = (tomoPhiArg idExternals (admmSetup 2 cArgs0)
            (admmLoop idExternals (admmSetup 2 cArgs0) 1)).length ↔ 2 = 1) :=
  tomo_step_length_mismatch idExternals 2 cArgs0
    (fun ob th => by simp [idExternals]) (by decide) (by decide) 1

end Tike
